import Mathlib

/-!
Verification of the TailSync clipboard-synchronization core: a shallow
embedding of the relay hub (`src/server/main.py`) and of the desktop client
sync engine (`src/desktop-clients/main.py`), together with proofs of the
specification's testable properties.

Modelling conventions:
* Connections are identified by natural numbers; a WebSocket transport send
  is modelled as appending a `(connection, text)` pair to a global delivery
  log `sent`, so per-connection delivery order is the order of that log.
  Transport sends are modelled as succeeding on the relay side (a failing
  send disconnects the peer as a side effect in the source; none of the
  verified claims depend on that branch).  On the client side the single
  send in `send_clipboard` takes an explicit success flag, because the
  source swallows the failure and skips the `last_sent_at` update.
* `json.loads` followed by the field accesses the relay performs
  (`parsed.get("type")`, `"source" in parsed`) is abstracted as a parameter
  `parse : String → Option ParsedMsg`; `none` models malformed JSON
  (`json.JSONDecodeError`).
* Wall-clock instants (`time.time()`) are rationals; the guards in the
  source only compare and add constants, which ℚ models exactly.
-/

set_option autoImplicit false

abbrev ConnId := Nat

/-- Raw payload size limit of the relay: `MAX_PAYLOAD_SIZE = 10 * 1024 * 1024`. -/
def MAX_PAYLOAD_SIZE : Nat := 10 * 1024 * 1024

/-- Result of parsing a raw text as JSON, restricted to the fields the relay
inspects: `parsed.get("type")` and whether `"source" in parsed`. -/
structure ParsedMsg where
  type? : Option String
  hasSource : Bool
deriving DecidableEq

/-- Relay-side state of `ConnectionManager` plus the global delivery log:
`active_connections`, `last_payload`, and the ordered list of frames handed
to each connection's transport. -/
structure RelayState where
  active : List ConnId
  last_payload : Option String
  sent : List (ConnId × String)
deriving DecidableEq

/-- The relay's initial state: no connections, empty cache slot, nothing sent. -/
def initRelay : RelayState := { active := [], last_payload := none, sent := [] }

/-- Embedding of `ConnectionManager.connect`: accept the handshake, append to
`active_connections`, and if `self.last_payload` is truthy (non-`None` and
non-empty, Python truthiness) send the cached payload to the new connection. -/
def ConnectionManager.connect (s : RelayState) (c : ConnId) : RelayState :=
  let s1 : RelayState := { s with active := s.active ++ [c] }
  match s1.last_payload with
  | some payload =>
      if payload ≠ "" then { s1 with sent := s1.sent ++ [(c, payload)] } else s1
  | none => s1

/-- Embedding of `ConnectionManager.disconnect`: remove the connection from
the active set if present (`list.remove` removes the first occurrence; the
membership guard makes the operation a no-op when absent). -/
def ConnectionManager.disconnect (s : RelayState) (c : ConnId) : RelayState :=
  { s with active := s.active.erase c }

/-- Embedding of `ConnectionManager.broadcast`: parse the message; if it
parses and its type is not `"ping"`, store the raw text in `last_payload`
(malformed JSON leaves the cache untouched); then send the raw text to every
active connection other than `sender`. -/
def ConnectionManager.broadcast (parse : String → Option ParsedMsg)
    (s : RelayState) (message : String) (sender : Option ConnId) : RelayState :=
  let s1 : RelayState :=
    match parse message with
    | some parsed =>
        if parsed.type? ≠ some "ping" then { s with last_payload := some message } else s
    | none => s
  let targets := s1.active.filter (fun conn => decide (some conn ≠ sender))
  { s1 with sent := s1.sent ++ targets.map (fun conn => (conn, message)) }

/-- Embedding of one iteration of the receive loop of `websocket_endpoint`:
drop oversized payloads, drop malformed JSON, swallow `"ping"` heartbeats,
drop messages without a `"source"` key, and broadcast everything else with
the sender excluded. -/
def websocket_receive (parse : String → Option ParsedMsg)
    (s : RelayState) (c : ConnId) (data : String) : RelayState :=
  if MAX_PAYLOAD_SIZE < data.length then s
  else
    match parse data with
    | none => s
    | some parsed =>
        if parsed.type? = some "ping" then s
        else if parsed.hasSource then ConnectionManager.broadcast parse s data (some c)
        else s

/-- The raw heartbeat text built by `server_heartbeat`:
`json.dumps({"type": "ping", "source": "server"})`. -/
def heartbeatMessage : String := "\x7b\"type\": \"ping\", \"source\": \"server\"\x7d"

/-- Embedding of one firing of `server_heartbeat`: if the active set is
non-empty, broadcast the heartbeat with no excluded sender. -/
def server_heartbeat (parse : String → Option ParsedMsg) (s : RelayState) : RelayState :=
  if s.active ≠ [] then ConnectionManager.broadcast parse s heartbeatMessage none else s

/-- The events that drive the relay's shared state. -/
inductive RelayEvent where
  | connect (c : ConnId)
  | disconnect (c : ConnId)
  | receive (c : ConnId) (data : String)
  | heartbeat
deriving DecidableEq

/-- One relay step. -/
def relayStep (parse : String → Option ParsedMsg) (s : RelayState) :
    RelayEvent → RelayState
  | .connect c => ConnectionManager.connect s c
  | .disconnect c => ConnectionManager.disconnect s c
  | .receive c data => websocket_receive parse s c data
  | .heartbeat => server_heartbeat parse s

/-- Run a sequence of relay events from a state. -/
def runRelay (parse : String → Option ParsedMsg) (es : List RelayEvent)
    (s : RelayState) : RelayState :=
  es.foldl (relayStep parse) s

/-- The frames delivered to connection `c`, oldest first. -/
def framesTo (c : ConnId) (s : RelayState) : List String :=
  (s.sent.filter (fun e => e.1 == c)).map (fun e => e.2)

/-- Whether a raw text parses as a heartbeat (`type == "ping"`). -/
def isPingText (parse : String → Option ParsedMsg) (m : String) : Bool :=
  match parse m with
  | some p => p.type? == some "ping"
  | none => false

/-- A concrete parse function used to instantiate the parameterized relay
model on closed inputs: `"A"` and `"B"` parse as data messages carrying a
source, the heartbeat text parses as a ping, everything else is malformed. -/
def parseEx : String → Option ParsedMsg := fun t =>
  if t = "A" then some { type? := none, hasSource := true }
  else if t = "B" then some { type? := none, hasSource := true }
  else if t = heartbeatMessage then some { type? := some "ping", hasSource := true }
  else none

/-- A payload one byte over the relay's size limit. -/
def oversizedPayload : String := String.mk (List.replicate (MAX_PAYLOAD_SIZE + 1) 'a')

theorem oversizedPayload_length : MAX_PAYLOAD_SIZE < oversizedPayload.length := by
  have h : oversizedPayload.length = MAX_PAYLOAD_SIZE + 1 := by
    show (List.replicate (MAX_PAYLOAD_SIZE + 1) 'a').length = MAX_PAYLOAD_SIZE + 1
    exact List.length_replicate _ _
  omega

/-- A relay state with three active connections 0, 1, 2, empty cache and an
empty delivery log, used to instantiate relay theorems on closed inputs. -/
def relayABC : RelayState := { active := [0, 1, 2], last_payload := none, sent := [] }

/-- C8: an inbound payload longer than 10 MiB is dropped by the receive loop:
the relay state is unchanged, so no broadcast occurs, the cache slot keeps
its value, no connection is sent anything derived from the payload, and the
sending connection stays in the active set. -/
theorem relay_oversized_payload_dropped (parse : String → Option ParsedMsg)
    (s : RelayState) (c : ConnId) (data : String)
    (h : MAX_PAYLOAD_SIZE < data.length) :
    websocket_receive parse s c data = s ∧
    (websocket_receive parse s c data).last_payload = s.last_payload ∧
    (websocket_receive parse s c data).sent = s.sent ∧
    (c ∈ s.active → c ∈ (websocket_receive parse s c data).active) := by
  have he : websocket_receive parse s c data = s := by
    unfold websocket_receive
    rw [if_pos h]
  exact ⟨he, by rw [he], by rw [he], fun hc => by rw [he]; exact hc⟩

/-- Witness for C8 at a 10 MiB + 1 payload. -/
theorem relay_oversized_payload_dropped_witness :
    MAX_PAYLOAD_SIZE < oversizedPayload.length ∧
    websocket_receive parseEx relayABC 0 oversizedPayload = relayABC :=
  ⟨oversizedPayload_length,
   (relay_oversized_payload_dropped parseEx relayABC 0 oversizedPayload
     oversizedPayload_length).1⟩

/-- C2: a well-formed, in-size, non-heartbeat message carrying a source,
received from connection `c`, is appended raw to the delivery log of every
active connection other than `c` (first conjunct: the new log is exactly the
old one plus one copy of the raw text per other active connection), every
other active connection receives the raw text, and nothing new is ever sent
back to `c`. -/
theorem relay_broadcast_excludes_sender (parse : String → Option ParsedMsg)
    (s : RelayState) (c : ConnId) (data : String) (p : ParsedMsg)
    (hsize : data.length ≤ MAX_PAYLOAD_SIZE)
    (hp : parse data = some p)
    (hping : p.type? ≠ some "ping")
    (hsrc : p.hasSource = true) :
    (websocket_receive parse s c data).sent =
      s.sent ++ (s.active.filter (fun conn => decide (some conn ≠ some c))).map
        (fun conn => (conn, data)) ∧
    ((s.active.filter (fun conn => conn != c)).all
      (fun conn => (websocket_receive parse s c data).sent.contains (conn, data))) = true ∧
    (((websocket_receive parse s c data).sent.drop s.sent.length).all
      (fun e => e.1 != c)) = true := by
  have hnlt : ¬ MAX_PAYLOAD_SIZE < data.length := Nat.not_lt.mpr hsize
  have he : websocket_receive parse s c data =
      ConnectionManager.broadcast parse s data (some c) := by
    unfold websocket_receive
    rw [if_neg hnlt, hp]
    simp [hping, hsrc]
  have hsent : (websocket_receive parse s c data).sent =
      s.sent ++ (s.active.filter (fun conn => decide (some conn ≠ some c))).map
        (fun conn => (conn, data)) := by
    rw [he]
    unfold ConnectionManager.broadcast
    rw [hp]
    simp [hping]
  refine ⟨hsent, ?_, ?_⟩
  · rw [List.all_eq_true]
    intro conn hconn
    rw [List.mem_filter] at hconn
    have hconnne : conn ≠ c := by simpa using hconn.2
    rw [hsent]
    have : (conn, data) ∈
        (s.active.filter (fun conn => decide (some conn ≠ some c))).map
          (fun conn => (conn, data)) := by
      rw [List.mem_map]
      exact ⟨conn, by rw [List.mem_filter]; simpa using ⟨hconn.1, hconnne⟩, rfl⟩
    simpa using Or.inr this
  · rw [hsent, List.drop_left]
    rw [List.all_eq_true]
    intro e he2
    rw [List.mem_map] at he2
    obtain ⟨conn, hconn, rfl⟩ := he2
    rw [List.mem_filter] at hconn
    simpa using hconn.2

/-- Witness for C2 on a three-client relay with sender 1. -/
theorem relay_broadcast_excludes_sender_witness :
    ("A".length ≤ MAX_PAYLOAD_SIZE ∧
      parseEx "A" = some { type? := none, hasSource := true }) ∧
    ((websocket_receive parseEx relayABC 1 "A").sent =
      relayABC.sent ++ (relayABC.active.filter (fun conn => decide (some conn ≠ some 1))).map
        (fun conn => (conn, "A")) ∧
    ((relayABC.active.filter (fun conn => conn != 1)).all
      (fun conn => (websocket_receive parseEx relayABC 1 "A").sent.contains (conn, "A"))) = true ∧
    (((websocket_receive parseEx relayABC 1 "A").sent.drop relayABC.sent.length).all
      (fun e => e.1 != 1)) = true) :=
  ⟨⟨by decide, by decide⟩,
   relay_broadcast_excludes_sender parseEx relayABC 1 "A" { type? := none, hasSource := true }
     (by decide) (by decide) (by decide) (by decide)⟩

/-- Whether `broadcast` would store a raw text in the cache slot: it parses
as JSON and its type is not `"ping"`. -/
def textCaches (parse : String → Option ParsedMsg) (m : String) : Bool :=
  match parse m with
  | some p => p.type? != some "ping"
  | none => false

/-- Relay events that never overwrite the cache slot: connects, disconnects,
heartbeats (given that the heartbeat text classifies as a ping), and receives
that the endpoint drops or swallows (oversized, malformed, ping, no source). -/
def cachesNothing (parse : String → Option ParsedMsg) : RelayEvent → Bool
  | .connect _ => true
  | .disconnect _ => true
  | .heartbeat => !(textCaches parse heartbeatMessage)
  | .receive _ d =>
      decide (MAX_PAYLOAD_SIZE < d.length) ||
      (match parse d with
       | none => true
       | some p => p.type? == some "ping" || !p.hasSource)

theorem connect_last_payload (s : RelayState) (c : ConnId) :
    (ConnectionManager.connect s c).last_payload = s.last_payload := by
  unfold ConnectionManager.connect
  cases hl : s.last_payload with
  | none => simp [hl]
  | some payload =>
      simp only [hl]
      split <;> rfl

theorem broadcast_last_payload (parse : String → Option ParsedMsg)
    (s : RelayState) (m : String) (sender : Option ConnId) :
    (ConnectionManager.broadcast parse s m sender).last_payload =
      if textCaches parse m then some m else s.last_payload := by
  unfold ConnectionManager.broadcast textCaches
  cases hp : parse m with
  | none => simp
  | some p =>
      by_cases h : p.type? = some "ping"
      · simp [h]
      · simp [h]

theorem broadcast_sent (parse : String → Option ParsedMsg)
    (s : RelayState) (m : String) (sender : Option ConnId) :
    (ConnectionManager.broadcast parse s m sender).sent =
      s.sent ++ (s.active.filter (fun conn => decide (some conn ≠ sender))).map
        (fun conn => (conn, m)) := by
  unfold ConnectionManager.broadcast
  cases hp : parse m with
  | none => rfl
  | some p =>
      by_cases h : p.type? = some "ping"
      · simp [h]
      · simp [h]

theorem isPingText_textCaches (parse : String → Option ParsedMsg) (m : String)
    (h : isPingText parse m = true) : textCaches parse m = false := by
  unfold isPingText at h
  unfold textCaches
  cases hp : parse m with
  | none => rfl
  | some p =>
      rw [hp] at h
      simp only [beq_iff_eq] at h
      simp [h]

/-- A ping-classified inbound text is swallowed by the receive loop. -/
theorem websocket_receive_ping (parse : String → Option ParsedMsg)
    (s : RelayState) (c : ConnId) (d : String)
    (h : isPingText parse d = true) : websocket_receive parse s c d = s := by
  unfold isPingText at h
  unfold websocket_receive
  cases hlt : decide (MAX_PAYLOAD_SIZE < d.length) with
  | true => rw [if_pos (of_decide_eq_true hlt)]
  | false =>
      rw [if_neg (of_decide_eq_false hlt)]
      cases hp : parse d with
      | none => rfl
      | some p =>
          rw [hp] at h
          simp only [beq_iff_eq] at h
          simp [h]

theorem relayStep_last_payload_of_cachesNothing (parse : String → Option ParsedMsg)
    (s : RelayState) (e : RelayEvent) (h : cachesNothing parse e = true) :
    (relayStep parse s e).last_payload = s.last_payload := by
  cases e with
  | connect c => exact connect_last_payload s c
  | disconnect c => rfl
  | heartbeat =>
      show (server_heartbeat parse s).last_payload = s.last_payload
      unfold cachesNothing at h
      rw [Bool.not_eq_true'] at h
      unfold server_heartbeat
      split
      · rw [broadcast_last_payload, if_neg (by simp [h])]
      · rfl
  | receive c d =>
      show (websocket_receive parse s c d).last_payload = s.last_payload
      unfold cachesNothing at h
      unfold websocket_receive
      split
      · rfl
      · next hns =>
          split
          · rfl
          · next p hp =>
              split
              · rfl
              · next hping =>
                  split
                  · next hsrc =>
                      exfalso
                      rw [Bool.or_eq_true] at h
                      rcases h with h | h
                      · exact hns (of_decide_eq_true h)
                      · rw [hp] at h
                        simp [hping, hsrc] at h
                  · rfl

theorem runRelay_last_payload_of_cachesNothing (parse : String → Option ParsedMsg)
    (es : List RelayEvent) (s : RelayState)
    (h : ∀ e ∈ es, cachesNothing parse e = true) :
    (runRelay parse es s).last_payload = s.last_payload := by
  induction es generalizing s with
  | nil => rfl
  | cons e es ih =>
      have hstep : runRelay parse (e :: es) s = runRelay parse es (relayStep parse s e) := rfl
      rw [hstep, ih _ (fun x hx => h x (List.mem_cons_of_mem _ hx)),
        relayStep_last_payload_of_cachesNothing parse s e (h e (List.mem_cons_self _ _))]

theorem connect_sent (s : RelayState) (c : ConnId) :
    (ConnectionManager.connect s c).sent =
      s.sent ++ (match s.last_payload with
        | some payload => if payload ≠ "" then [(c, payload)] else []
        | none => []) := by
  unfold ConnectionManager.connect
  cases hl : s.last_payload with
  | none => simp [hl]
  | some payload =>
      simp only [hl]
      split
      · simp
      · simp

theorem relayStep_preserves_no_ping_cache (parse : String → Option ParsedMsg)
    (s : RelayState) (e : RelayEvent)
    (hHB : isPingText parse heartbeatMessage = true)
    (h : ∀ m, s.last_payload = some m → isPingText parse m = false) :
    ∀ m, (relayStep parse s e).last_payload = some m → isPingText parse m = false := by
  cases e with
  | connect c =>
      intro m hm
      have hm' : (ConnectionManager.connect s c).last_payload = some m := hm
      rw [connect_last_payload] at hm'
      exact h m hm'
  | disconnect c => exact h
  | heartbeat =>
      show ∀ m, (server_heartbeat parse s).last_payload = some m → isPingText parse m = false
      intro m hm
      unfold server_heartbeat at hm
      have htc := isPingText_textCaches parse heartbeatMessage hHB
      split at hm
      · rw [broadcast_last_payload, if_neg (by simp [htc])] at hm
        exact h m hm
      · exact h m hm
  | receive c d =>
      show ∀ m, (websocket_receive parse s c d).last_payload = some m → isPingText parse m = false
      intro m hm
      unfold websocket_receive at hm
      split at hm
      · exact h m hm
      · split at hm
        · exact h m hm
        · next p hp =>
            split at hm
            · exact h m hm
            · next hping =>
                split at hm
                · rw [broadcast_last_payload] at hm
                  have htc : textCaches parse d = true := by
                    unfold textCaches
                    rw [hp]
                    simp [hping]
                  rw [if_pos htc] at hm
                  have hmd : m = d := by injection hm with hmd; exact hmd.symm
                  subst hmd
                  unfold isPingText
                  rw [hp]
                  simp [hping]
                · exact h m hm

theorem runRelay_preserves_no_ping_cache (parse : String → Option ParsedMsg)
    (hHB : isPingText parse heartbeatMessage = true)
    (es : List RelayEvent) (s : RelayState)
    (h : ∀ m, s.last_payload = some m → isPingText parse m = false) :
    ∀ m, (runRelay parse es s).last_payload = some m → isPingText parse m = false := by
  induction es generalizing s with
  | nil => exact h
  | cons e es ih => exact ih _ (relayStep_preserves_no_ping_cache parse s e hHB h)

/-- C4: in every reachable relay state the cache slot never holds a ping
(heartbeat): from the initial state, after any sequence of events, a cached
message never classifies as `"ping"`; moreover a ping-classified inbound text
is swallowed by the receive loop with no state change, and every frame a
joining connection is handed during `connect` is a non-ping replay. -/
theorem relay_cache_never_ping (parse : String → Option ParsedMsg)
    (hHB : isPingText parse heartbeatMessage = true)
    (es : List RelayEvent) (m d : String) (c : ConnId)
    (hm : (runRelay parse es initRelay).last_payload = some m)
    (hd : isPingText parse d = true) :
    isPingText parse m = false ∧
    websocket_receive parse (runRelay parse es initRelay) c d = runRelay parse es initRelay ∧
    (((ConnectionManager.connect (runRelay parse es initRelay) c).sent.drop
        (runRelay parse es initRelay).sent.length).all
      (fun e => !(isPingText parse e.2))) = true := by
  have hinv : isPingText parse m = false :=
    runRelay_preserves_no_ping_cache parse hHB es initRelay
      (fun m0 hm0 => by simp [initRelay] at hm0) m hm
  refine ⟨hinv, websocket_receive_ping parse _ c d hd, ?_⟩
  rw [connect_sent, List.drop_left, hm]
  show (if m ≠ "" then [(c, m)] else []).all (fun e => !(isPingText parse e.2)) = true
  by_cases hme : m = ""
  · simp [hme]
  · simp [hme, hinv]

/-- Witness for C4: after connect-then-data, the cache holds the data message
(not a ping), a heartbeat frame is swallowed, and the replay to a joining
connection is ping-free. -/
theorem relay_cache_never_ping_witness :
    (isPingText parseEx heartbeatMessage = true ∧
      (runRelay parseEx [RelayEvent.connect 0, RelayEvent.receive 0 "A"]
          initRelay).last_payload = some "A") ∧
    (isPingText parseEx "A" = false ∧
      websocket_receive parseEx
          (runRelay parseEx [RelayEvent.connect 0, RelayEvent.receive 0 "A"] initRelay) 1
          heartbeatMessage =
        runRelay parseEx [RelayEvent.connect 0, RelayEvent.receive 0 "A"] initRelay ∧
      (((ConnectionManager.connect
            (runRelay parseEx [RelayEvent.connect 0, RelayEvent.receive 0 "A"]
              initRelay) 1).sent.drop
          (runRelay parseEx [RelayEvent.connect 0, RelayEvent.receive 0 "A"]
            initRelay).sent.length).all
        (fun e => !(isPingText parseEx e.2))) = true) :=
  ⟨⟨by decide, by decide⟩,
   relay_cache_never_ping parseEx (by decide)
     [RelayEvent.connect 0, RelayEvent.receive 0 "A"] "A" heartbeatMessage 1
     (by decide) (by decide)⟩

theorem relayStep_sent_append (parse : String → Option ParsedMsg) (s : RelayState)
    (e : RelayEvent) : ∃ l, (relayStep parse s e).sent = s.sent ++ l := by
  cases e with
  | connect c => exact ⟨_, connect_sent s c⟩
  | disconnect c =>
      refine ⟨[], ?_⟩
      show (ConnectionManager.disconnect s c).sent = s.sent ++ []
      simp [ConnectionManager.disconnect]
  | receive c d =>
      show ∃ l, (websocket_receive parse s c d).sent = s.sent ++ l
      unfold websocket_receive
      split
      · exact ⟨[], by simp⟩
      · split
        · exact ⟨[], by simp⟩
        · split
          · exact ⟨[], by simp⟩
          · split
            · exact ⟨_, broadcast_sent parse s d (some c)⟩
            · exact ⟨[], by simp⟩
  | heartbeat =>
      show ∃ l, (server_heartbeat parse s).sent = s.sent ++ l
      unfold server_heartbeat
      split
      · exact ⟨_, broadcast_sent parse s heartbeatMessage none⟩
      · exact ⟨[], by simp⟩

theorem framesTo_head_relayStep (parse : String → Option ParsedMsg) (s : RelayState)
    (e : RelayEvent) (c : ConnId) (m : String)
    (h : (framesTo c s).head? = some m) :
    (framesTo c (relayStep parse s e)).head? = some m := by
  obtain ⟨l, hl⟩ := relayStep_sent_append parse s e
  unfold framesTo at h ⊢
  rw [hl, List.filter_append, List.map_append]
  cases hf : (s.sent.filter (fun e => e.1 == c)).map (fun e => e.2) with
  | nil => rw [hf] at h; simp at h
  | cons a t => rw [hf] at h; simpa using h

theorem framesTo_head_runRelay (parse : String → Option ParsedMsg)
    (es : List RelayEvent) (s : RelayState) (c : ConnId) (m : String)
    (h : (framesTo c s).head? = some m) :
    (framesTo c (runRelay parse es s)).head? = some m := by
  induction es generalizing s with
  | nil => exact h
  | cons e es ih => exact ih _ (framesTo_head_relayStep parse s e c m h)

theorem framesTo_connect_cached (s : RelayState) (c : ConnId) (m : String)
    (hm : s.last_payload = some m) (hne : m ≠ "") (hfresh : framesTo c s = []) :
    framesTo c (ConnectionManager.connect s c) = [m] := by
  unfold framesTo at hfresh ⊢
  rw [connect_sent, hm]
  show ((s.sent ++ if m ≠ "" then [(c, m)] else []).filter
    (fun e => e.1 == c)).map (fun e => e.2) = [m]
  rw [if_pos hne, List.filter_append, List.map_append, hfresh]
  simp

/-- C3: once the relay broadcasts a non-heartbeat message `m` (well-formed,
in-size, source-bearing, received from `c0`), the cache slot holds exactly
the raw text `m`; after any further events that do not overwrite the cache it
still holds `m`; a connection `c` that then joins fresh (no prior deliveries)
has `m` as its only — hence first — delivered frame; and however the relay
runs on afterwards, `m` remains the first frame ever delivered to `c`. -/
theorem relay_replay_cached_first (parse : String → Option ParsedMsg)
    (s0 : RelayState) (c0 c : ConnId) (m : String) (p : ParsedMsg)
    (es es2 : List RelayEvent)
    (hsize : m.length ≤ MAX_PAYLOAD_SIZE)
    (hp : parse m = some p)
    (hping : p.type? ≠ some "ping")
    (hsrc : p.hasSource = true)
    (hne : m ≠ "")
    (hes : ∀ e ∈ es, cachesNothing parse e = true)
    (hfresh : framesTo c (runRelay parse es (websocket_receive parse s0 c0 m)) = []) :
    (websocket_receive parse s0 c0 m).last_payload = some m ∧
    (runRelay parse es (websocket_receive parse s0 c0 m)).last_payload = some m ∧
    framesTo c (ConnectionManager.connect
      (runRelay parse es (websocket_receive parse s0 c0 m)) c) = [m] ∧
    (framesTo c (runRelay parse es2 (ConnectionManager.connect
      (runRelay parse es (websocket_receive parse s0 c0 m)) c))).head? = some m := by
  have htc : textCaches parse m = true := by
    unfold textCaches
    rw [hp]
    simp [hping]
  have h1 : (websocket_receive parse s0 c0 m).last_payload = some m := by
    have he : websocket_receive parse s0 c0 m =
        ConnectionManager.broadcast parse s0 m (some c0) := by
      unfold websocket_receive
      rw [if_neg (Nat.not_lt.mpr hsize), hp]
      simp [hping, hsrc]
    rw [he, broadcast_last_payload, if_pos htc]
  have h2 : (runRelay parse es (websocket_receive parse s0 c0 m)).last_payload = some m := by
    rw [runRelay_last_payload_of_cachesNothing parse es _ hes]
    exact h1
  have h3 : framesTo c (ConnectionManager.connect
      (runRelay parse es (websocket_receive parse s0 c0 m)) c) = [m] :=
    framesTo_connect_cached _ c m h2 hne hfresh
  refine ⟨h1, h2, h3, ?_⟩
  apply framesTo_head_runRelay
  rw [h3]
  rfl

/-- Witness for C3: message `"A"` from connection 0, a heartbeat in between,
a fresh connection 1 joining, then a further broadcast of `"B"`. -/
theorem relay_replay_cached_first_witness :
    ("A".length ≤ MAX_PAYLOAD_SIZE ∧
      parseEx "A" = some { type? := none, hasSource := true } ∧
      (∀ e ∈ [RelayEvent.heartbeat], cachesNothing parseEx e = true) ∧
      framesTo 1 (runRelay parseEx [RelayEvent.heartbeat]
        (websocket_receive parseEx { active := [0], last_payload := none, sent := [] }
          0 "A")) = []) ∧
    ((websocket_receive parseEx { active := [0], last_payload := none, sent := [] }
        0 "A").last_payload = some "A" ∧
      (runRelay parseEx [RelayEvent.heartbeat]
        (websocket_receive parseEx { active := [0], last_payload := none, sent := [] }
          0 "A")).last_payload = some "A" ∧
      framesTo 1 (ConnectionManager.connect
        (runRelay parseEx [RelayEvent.heartbeat]
          (websocket_receive parseEx { active := [0], last_payload := none, sent := [] }
            0 "A")) 1) = ["A"] ∧
      (framesTo 1 (runRelay parseEx [RelayEvent.receive 0 "B"]
        (ConnectionManager.connect
          (runRelay parseEx [RelayEvent.heartbeat]
            (websocket_receive parseEx { active := [0], last_payload := none, sent := [] }
              0 "A")) 1))).head? = some "A") :=
  ⟨⟨by decide, by decide, by decide, by decide⟩,
   relay_replay_cached_first parseEx { active := [0], last_payload := none, sent := [] }
     0 1 "A" { type? := none, hasSource := true } [RelayEvent.heartbeat]
     [RelayEvent.receive 0 "B"] (by decide) (by decide) (by decide) (by decide)
     (by decide) (by decide) (by decide)⟩

/-- The fixed device identifier compiled into every desktop client. -/
def DEVICE_ID : String := "desktop-client"

/-- The symmetric transform held in `self.fernet`, abstracted to its encrypt
and decrypt behaviour; a `none` result models the exception the library
raises (garbage data or a wrong key). -/
structure Fernet where
  encryptFn : String → Option String
  decryptFn : String → Option String

/-- Embedding of `TailSyncClient.encrypt_text`: empty input gives `""`,
a missing transform falls back to the plain input, and an encryption
exception degrades to `""`. -/
def encrypt_text (fernet : Option Fernet) (text : String) : String :=
  if text = "" then ""
  else
    match fernet with
    | none => text
    | some f =>
        match f.encryptFn text with
        | some cipher => cipher
        | none => ""

/-- Embedding of `TailSyncClient.decrypt_text`: empty input gives `""`,
a missing transform falls back to the raw input, and a decryption exception
quietly degrades to `""`. -/
def decrypt_text (fernet : Option Fernet) (text : String) : String :=
  if text = "" then ""
  else
    match fernet with
    | none => text
    | some f =>
        match f.decryptFn text with
        | some plain => plain
        | none => ""

/-- Client-side mutable state of `TailSyncClient` touched by the sync path:
`should_reconnect` (user intent), the debounce/echo-suppression scalars and
whether the network loop and active transport are up. -/
structure ClientState where
  should_reconnect : Bool
  last_sent_at : ℚ
  ignore_until : ℚ
  last_received_plain : Option String
  debounce_delay : ℚ
  main_loop : Bool
  active_ws : Bool
deriving DecidableEq

/-- The outbound wire message built by `send_clipboard`. -/
structure SyncMessage where
  plain_text : String
  html_text : String
  source : String
  timestamp : ℚ
deriving DecidableEq

/-- Embedding of `TailSyncClient.send_clipboard`: bail out when no transport
is active or the user paused; otherwise encrypt both fields, build the
payload with this device's identifier and the current time, and send it;
`last_sent_at` is updated only when the send succeeds (`sendOk`), a failure
being swallowed. -/
def send_clipboard (fernet : Option Fernet) (now : ℚ) (s : ClientState)
    (plain html : String) (sendOk : Bool) : ClientState × Option SyncMessage :=
  if !s.active_ws || !s.should_reconnect then (s, none)
  else
    let payload : SyncMessage :=
      { plain_text := encrypt_text fernet plain
        html_text := encrypt_text fernet html
        source := DEVICE_ID
        timestamp := now }
    if sendOk then ({ s with last_sent_at := now }, some payload)
    else (s, none)

/-- Embedding of `TailSyncClient.on_clipboard_change`: the four guards in
source order (paused, echo-suppression window, debounce, value already known
to the network), then the hand-off to `send_clipboard` when the network loop
and transport are up.  The two `time.time()` reads of the guards are one
instant `now`; the clipboard read is the `(plain, html)` argument pair. -/
def on_clipboard_change (fernet : Option Fernet) (now : ℚ) (s : ClientState)
    (plain html : String) (sendOk : Bool) : ClientState × Option SyncMessage :=
  if !s.should_reconnect then (s, none)
  else if now < s.ignore_until then (s, none)
  else if now - s.last_sent_at < s.debounce_delay then (s, none)
  else if some plain = s.last_received_plain then (s, none)
  else if s.main_loop && s.active_ws then send_clipboard fernet now s plain html sendOk
  else (s, none)

/-- One inbound JSON message as the client reads it: `data.get("source")`,
`data.get("type")`, `data.get("plain_text", "")`, `data.get("html_text", "")`. -/
structure InboundData where
  source? : Option String
  type? : Option String
  plain_text? : Option String
  html_text? : Option String
deriving DecidableEq

/-- Embedding of one iteration of the inbound message loop of
`run_sync_loop` (while connected): drop self-echoes and pings, decrypt both
fields, and when the decrypted plain text is new, open the 1-second ignore
window, record it in `last_received_plain` and apply the pair to the local
clipboard sink (the second component of the result). -/
def run_sync_loop_step (fernet : Option Fernet) (now : ℚ) (s : ClientState)
    (data : InboundData) : ClientState × Option (String × String) :=
  if data.source? = some DEVICE_ID ∨ data.type? = some "ping" then (s, none)
  else
    let raw_plain := data.plain_text?.getD ""
    let raw_html := data.html_text?.getD ""
    let plain := decrypt_text fernet raw_plain
    let html := decrypt_text fernet raw_html
    if some plain ≠ s.last_received_plain then
      ({ s with ignore_until := now + 1, last_received_plain := some plain },
       some (plain, html))
    else (s, none)

/-- The outbound handler sends nothing (and leaves the state unchanged)
whenever the echo-suppression window is open or the read plain text equals
the last value known to the network. -/
theorem on_clipboard_change_no_send (fernet : Option Fernet) (now : ℚ)
    (s : ClientState) (plain html : String) (sendOk : Bool)
    (h : now < s.ignore_until ∨ some plain = s.last_received_plain) :
    on_clipboard_change fernet now s plain html sendOk = (s, none) := by
  unfold on_clipboard_change
  split
  · rfl
  · split
    · rfl
    · split
      · rfl
      · split
        · rfl
        · rename_i h1 h2 h3 h4
          exfalso
          rcases h with hlt | heq
          · exact h2 hlt
          · exact h4 heq

/-- C5: inbound handling while connected.  A message whose source is this
client's identifier or whose type is `"ping"` is ignored with no state
change; otherwise both fields are decrypted and, when the plain text is new,
the client opens the 1-second ignore window, records the plain text and
applies the pair to the clipboard sink, while an unchanged plain text is a
no-op. -/
theorem client_inbound_handling (fernet : Option Fernet) (now : ℚ)
    (s : ClientState) (data : InboundData) :
    ((data.source? = some DEVICE_ID ∨ data.type? = some "ping") →
      run_sync_loop_step fernet now s data = (s, none)) ∧
    (¬(data.source? = some DEVICE_ID ∨ data.type? = some "ping") →
      (some (decrypt_text fernet (data.plain_text?.getD "")) ≠ s.last_received_plain →
        run_sync_loop_step fernet now s data =
          ({ s with
              ignore_until := now + 1
              last_received_plain := some (decrypt_text fernet (data.plain_text?.getD "")) },
           some (decrypt_text fernet (data.plain_text?.getD ""),
             decrypt_text fernet (data.html_text?.getD "")))) ∧
      (some (decrypt_text fernet (data.plain_text?.getD "")) = s.last_received_plain →
        run_sync_loop_step fernet now s data = (s, none))) := by
  refine ⟨fun h => ?_, fun h => ⟨fun hd => ?_, fun hd => ?_⟩⟩
  · simp only [run_sync_loop_step]
    rw [if_pos h]
  · simp only [run_sync_loop_step]
    rw [if_neg h, if_pos hd]
  · simp only [run_sync_loop_step]
    rw [if_neg h, if_neg (not_not_intro hd)]

/-- Witness for C5: a peer message with a fresh plain text is applied and
opens the ignore window (no transform configured, so fields pass through). -/
theorem client_inbound_handling_witness :
    (¬(some "phone" = some DEVICE_ID ∨ (none : Option String) = some "ping") ∧
      some (decrypt_text none ((some "X" : Option String).getD "")) ≠
        (none : Option String)) ∧
    run_sync_loop_step none 0
        { should_reconnect := true, last_sent_at := 0, ignore_until := 0,
          last_received_plain := none, debounce_delay := 1/2,
          main_loop := true, active_ws := true }
        { source? := some "phone", type? := none,
          plain_text? := some "X", html_text? := some "H" } =
      ({ should_reconnect := true, last_sent_at := 0, ignore_until := 0 + 1,
          last_received_plain := some "X", debounce_delay := 1/2,
          main_loop := true, active_ws := true },
       some ("X", "H")) :=
  ⟨⟨by decide, by decide⟩,
   ((client_inbound_handling none 0
      { should_reconnect := true, last_sent_at := 0, ignore_until := 0,
        last_received_plain := none, debounce_delay := 1/2,
        main_loop := true, active_ws := true }
      { source? := some "phone", type? := none,
        plain_text? := some "X", html_text? := some "H" }).2
     (by decide)).1 (by decide)⟩

/-- C1: a client that has just applied a remote update (plain text `X`) at
time `t0` sends no outbound message while the suppression window is open —
for any clipboard content and any notification time before `t0 + 1` the
outbound handler returns without sending — and a notification that reads
back the applied value `X` is suppressed at any time at all. -/
theorem client_no_echo_in_window (fernet : Option Fernet) (t0 : ℚ)
    (s sA : ClientState) (data : InboundData) (X htmlX : String)
    (happly : run_sync_loop_step fernet t0 s data = (sA, some (X, htmlX))) :
    (∀ t plain html sendOk, t < t0 + 1 →
      on_clipboard_change fernet t sA plain html sendOk = (sA, none)) ∧
    (∀ t html sendOk, on_clipboard_change fernet t sA X html sendOk = (sA, none)) := by
  have key : sA.ignore_until = t0 + 1 ∧ sA.last_received_plain = some X := by
    simp only [run_sync_loop_step] at happly
    split at happly
    · exact absurd happly (by simp)
    · split at happly
      · rw [Prod.mk.injEq] at happly
        obtain ⟨hs, ho⟩ := happly
        rw [Option.some.injEq, Prod.mk.injEq] at ho
        obtain ⟨hpX, hhX⟩ := ho
        subst hs
        refine ⟨rfl, ?_⟩
        show some (decrypt_text fernet (data.plain_text?.getD "")) = some X
        rw [hpX]
      · exact absurd happly (by simp)
  constructor
  · intro t plain html sendOk ht
    exact on_clipboard_change_no_send fernet t sA plain html sendOk
      (Or.inl (by rw [key.1]; exact ht))
  · intro t html sendOk
    exact on_clipboard_change_no_send fernet t sA X html sendOk
      (Or.inr key.2.symm)

/-- Witness for C1: apply remote `"X"` at time 0, then a local-change
notification at time 1/2 (inside the window) with a different value sends
nothing. -/
theorem client_no_echo_in_window_witness :
    (run_sync_loop_step none 0
        { should_reconnect := true, last_sent_at := 0, ignore_until := 0,
          last_received_plain := none, debounce_delay := 1/2,
          main_loop := true, active_ws := true }
        { source? := some "phone", type? := none,
          plain_text? := some "X", html_text? := some "H" } =
      ({ should_reconnect := true, last_sent_at := 0, ignore_until := 0 + 1,
          last_received_plain := some "X", debounce_delay := 1/2,
          main_loop := true, active_ws := true },
       some ("X", "H")) ∧ (1/2 : ℚ) < 0 + 1) ∧
    on_clipboard_change none (1/2)
        { should_reconnect := true, last_sent_at := 0, ignore_until := 0 + 1,
          last_received_plain := some "X", debounce_delay := 1/2,
          main_loop := true, active_ws := true } "Y" "h" true =
      ({ should_reconnect := true, last_sent_at := 0, ignore_until := 0 + 1,
          last_received_plain := some "X", debounce_delay := 1/2,
          main_loop := true, active_ws := true }, none) :=
  ⟨⟨by norm_num [run_sync_loop_step, decrypt_text, DEVICE_ID,
      (by decide : ("phone" : String) ≠ "desktop-client"),
      (by decide : ("X" : String) ≠ ""),
      (by decide : ("H" : String) ≠ ""),
      (by decide : (none : Option String) ≠ some "ping"),
      (by decide : some "X" ≠ (none : Option String))], by norm_num⟩,
   (client_no_echo_in_window none 0
      { should_reconnect := true, last_sent_at := 0, ignore_until := 0,
        last_received_plain := none, debounce_delay := 1/2,
        main_loop := true, active_ws := true }
      { should_reconnect := true, last_sent_at := 0, ignore_until := 0 + 1,
        last_received_plain := some "X", debounce_delay := 1/2,
        main_loop := true, active_ws := true }
      { source? := some "phone", type? := none,
        plain_text? := some "X", html_text? := some "H" }
      "X" "H" (by norm_num [run_sync_loop_step, decrypt_text, DEVICE_ID,
        (by decide : ("phone" : String) ≠ "desktop-client"),
        (by decide : ("X" : String) ≠ ""),
        (by decide : ("H" : String) ≠ ""),
        (by decide : (none : Option String) ≠ some "ping"),
        (by decide : some "X" ≠ (none : Option String))])).1
     (1/2) "Y" "h" true (by norm_num)⟩

/-- Any one of the four source-order guards makes the outbound handler
return `(s, none)`: paused, suppression window, debounce window, or value
already known to the network. -/
theorem on_clipboard_change_guard (fernet : Option Fernet) (now : ℚ)
    (s : ClientState) (plain html : String) (sendOk : Bool)
    (h : s.should_reconnect = false ∨ now < s.ignore_until ∨
      now - s.last_sent_at < s.debounce_delay ∨ some plain = s.last_received_plain) :
    on_clipboard_change fernet now s plain html sendOk = (s, none) := by
  unfold on_clipboard_change
  split
  · rfl
  · split
    · rfl
    · split
      · rfl
      · split
        · rfl
        · rename_i h1 h2 h3 h4
          exfalso
          rcases h with h | h | h | h
          · exact h1 (by simp [h])
          · exact h2 h
          · exact h3 h
          · exact h4 h

/-- When the outbound handler did produce a message, the only state change
is `last_sent_at := now`. -/
theorem on_clipboard_change_sent_state (fernet : Option Fernet) (now : ℚ)
    (s : ClientState) (plain html : String) (sendOk : Bool)
    (h : (on_clipboard_change fernet now s plain html sendOk).2.isSome = true) :
    (on_clipboard_change fernet now s plain html sendOk).1 =
      { s with last_sent_at := now } := by
  unfold on_clipboard_change at h ⊢
  by_cases c1 : (!s.should_reconnect) = true
  · rw [if_pos c1] at h
    simp at h
  · rw [if_neg c1] at h ⊢
    by_cases c2 : now < s.ignore_until
    · rw [if_pos c2] at h
      simp at h
    · rw [if_neg c2] at h ⊢
      by_cases c3 : now - s.last_sent_at < s.debounce_delay
      · rw [if_pos c3] at h
        simp at h
      · rw [if_neg c3] at h ⊢
        by_cases c4 : some plain = s.last_received_plain
        · rw [if_pos c4] at h
          simp at h
        · rw [if_neg c4] at h ⊢
          by_cases c5 : (s.main_loop && s.active_ws) = true
          · rw [if_pos c5] at h ⊢
            unfold send_clipboard at h ⊢
            by_cases c6 : (!s.active_ws || !s.should_reconnect) = true
            · rw [if_pos c6] at h
              simp at h
            · rw [if_neg c6] at h ⊢
              cases sendOk with
              | false => simp at h
              | true => rfl
          · rw [if_neg c5] at h
            simp at h

/-- C6: the outbound handler sends nothing when paused, inside the
suppression window, inside the debounce window, or when the clipboard plain
text equals the last value known to the network; when every guard passes and
the loop and transport are up it encrypts both fields, builds the message
with this device's identifier and the current time and, exactly on send
success, records `last_sent_at := now` (a failure is swallowed); and two
change attempts closer together than `debounce_delay` yield at most one sent
message. -/
theorem client_outbound_behaviour (fernet : Option Fernet) (now : ℚ)
    (s : ClientState) (plain html : String) (sendOk : Bool) :
    (s.should_reconnect = false →
      on_clipboard_change fernet now s plain html sendOk = (s, none)) ∧
    (now < s.ignore_until →
      on_clipboard_change fernet now s plain html sendOk = (s, none)) ∧
    (now - s.last_sent_at < s.debounce_delay →
      on_clipboard_change fernet now s plain html sendOk = (s, none)) ∧
    (some plain = s.last_received_plain →
      on_clipboard_change fernet now s plain html sendOk = (s, none)) ∧
    (s.should_reconnect = true → ¬ now < s.ignore_until →
      ¬ now - s.last_sent_at < s.debounce_delay →
      some plain ≠ s.last_received_plain →
      s.main_loop = true → s.active_ws = true →
      on_clipboard_change fernet now s plain html sendOk =
        (if sendOk then
          ({ s with last_sent_at := now },
           some { plain_text := encrypt_text fernet plain
                  html_text := encrypt_text fernet html
                  source := DEVICE_ID
                  timestamp := now })
         else (s, none))) ∧
    (∀ t1 t2 p1 h1 ok1 p2 h2 ok2, t2 - t1 < s.debounce_delay →
      ¬((on_clipboard_change fernet t1 s p1 h1 ok1).2.isSome = true ∧
        (on_clipboard_change fernet t2
          (on_clipboard_change fernet t1 s p1 h1 ok1).1 p2 h2 ok2).2.isSome = true)) := by
  refine ⟨fun h => on_clipboard_change_guard _ _ _ _ _ _ (Or.inl h),
    fun h => on_clipboard_change_guard _ _ _ _ _ _ (Or.inr (Or.inl h)),
    fun h => on_clipboard_change_guard _ _ _ _ _ _ (Or.inr (Or.inr (Or.inl h))),
    fun h => on_clipboard_change_guard _ _ _ _ _ _ (Or.inr (Or.inr (Or.inr h))),
    fun h1 h2 h3 h4 h5 h6 => ?_, fun t1 t2 p1 hh1 ok1 p2 hh2 ok2 hdt => ?_⟩
  · unfold on_clipboard_change
    rw [if_neg (by simp [h1]), if_neg h2, if_neg h3, if_neg h4,
      if_pos (by simp [h5, h6])]
    unfold send_clipboard
    rw [if_neg (by simp [h6, h1])]
  · rintro ⟨hs1, hs2⟩
    have h1st := on_clipboard_change_sent_state fernet t1 s p1 hh1 ok1 hs1
    rw [h1st] at hs2
    rw [on_clipboard_change_guard fernet t2 _ p2 hh2 ok2
      (Or.inr (Or.inr (Or.inl (by simpa using hdt))))] at hs2
    simp at hs2

/-- A connected, idle client state whose last value known to the network is
`"X"`, used to instantiate client theorems on closed inputs. -/
def sampleClient : ClientState :=
  { should_reconnect := true, last_sent_at := 0, ignore_until := 0,
    last_received_plain := some "X", debounce_delay := 1/2,
    main_loop := true, active_ws := true }

/-- Witness for C6: with every guard passing at time 10, the handler sends
the encrypted payload tagged with this device's identifier and records the
send time. -/
theorem client_outbound_behaviour_witness :
    (sampleClient.should_reconnect = true ∧
      ¬ (10 : ℚ) < sampleClient.ignore_until ∧
      ¬ (10 : ℚ) - sampleClient.last_sent_at < sampleClient.debounce_delay ∧
      some "Y" ≠ sampleClient.last_received_plain) ∧
    on_clipboard_change none 10 sampleClient "Y" "h" true =
      (if (true : Bool) then
        ({ sampleClient with last_sent_at := 10 },
         some { plain_text := encrypt_text none "Y"
                html_text := encrypt_text none "h"
                source := DEVICE_ID
                timestamp := 10 })
       else (sampleClient, none)) :=
  ⟨⟨rfl, by norm_num [sampleClient], by norm_num [sampleClient], by decide⟩,
   (client_outbound_behaviour none 10 sampleClient "Y" "h" true).2.2.2.2.1
     rfl (by norm_num [sampleClient]) (by norm_num [sampleClient]) (by decide)
     rfl rfl⟩

/-- Counterexample for C7 as stated: a locally reported change `"Y"` is sent
(the outbound path produced a message) yet `last_received_plain` still holds
the previously applied `"X"` — the outbound send operation does not
establish the reported value in `lastAppliedPlain`. -/
theorem client_last_applied_counterexample :
    (on_clipboard_change none 10 sampleClient "Y" "h" true).2.isSome = true ∧
    (on_clipboard_change none 10 sampleClient "Y" "h" true).1.last_received_plain ≠
      some "Y" := by
  have h : on_clipboard_change none 10 sampleClient "Y" "h" true =
      ({ sampleClient with last_sent_at := 10 },
       some { plain_text := "Y", html_text := "h",
              source := DEVICE_ID, timestamp := 10 }) := by
    norm_num [on_clipboard_change, send_clipboard, sampleClient, encrypt_text,
      (by decide : ("Y" : String) ≠ ""),
      (by decide : ("h" : String) ≠ ""),
      (by decide : some "Y" ≠ some "X")]
  rw [h]
  constructor
  · rfl
  · show some "X" ≠ some "Y"
    decide

/-- Case characterization of the inbound step: either it applies nothing and
leaves `last_received_plain` unchanged, or it applies some pair and records
exactly the applied plain text. -/
theorem run_sync_loop_step_last_received (fernet : Option Fernet) (now : ℚ)
    (s : ClientState) (data : InboundData) :
    ((run_sync_loop_step fernet now s data).2 = none ∧
      (run_sync_loop_step fernet now s data).1.last_received_plain =
        s.last_received_plain) ∨
    (∃ p h, (run_sync_loop_step fernet now s data).2 = some (p, h) ∧
      (run_sync_loop_step fernet now s data).1.last_received_plain = some p) := by
  simp only [run_sync_loop_step]
  split
  · exact Or.inl ⟨rfl, rfl⟩
  · split
    · exact Or.inr ⟨_, _, rfl, rfl⟩
    · exact Or.inl ⟨rfl, rfl⟩

/-- C7 (amended): `last_received_plain` is established only by the inbound
apply operation — it records exactly the most recently applied plain text,
while both outbound operations (the clipboard-change handler and the send
itself) leave it unchanged; the outbound dedup check and the inbound
change check are comparisons against this field (see the guard statements of
the outbound and inbound characterizations). -/
theorem client_last_applied_amended (fernet : Option Fernet) (now : ℚ)
    (s : ClientState) :
    (∀ data, ((run_sync_loop_step fernet now s data).2 = none →
        (run_sync_loop_step fernet now s data).1.last_received_plain =
          s.last_received_plain) ∧
      (∀ p h, (run_sync_loop_step fernet now s data).2 = some (p, h) →
        (run_sync_loop_step fernet now s data).1.last_received_plain = some p)) ∧
    (∀ plain html sendOk,
      (on_clipboard_change fernet now s plain html sendOk).1.last_received_plain =
        s.last_received_plain) ∧
    (∀ plain html sendOk,
      (send_clipboard fernet now s plain html sendOk).1.last_received_plain =
        s.last_received_plain) := by
  refine ⟨fun data => ⟨fun hnone => ?_, fun p h hsome => ?_⟩,
    fun plain html sendOk => ?_, fun plain html sendOk => ?_⟩
  · rcases run_sync_loop_step_last_received fernet now s data with ⟨_, he⟩ | ⟨p, q, hs, _⟩
    · exact he
    · rw [hnone] at hs
      exact absurd hs (by simp)
  · rcases run_sync_loop_step_last_received fernet now s data with ⟨hn, _⟩ | ⟨p2, q2, hs, he⟩
    · rw [hsome] at hn
      exact absurd hn (by simp)
    · rw [hsome] at hs
      rw [Option.some.injEq, Prod.mk.injEq] at hs
      rw [he, hs.1]
  · unfold on_clipboard_change send_clipboard
    repeat' split
    all_goals rfl
  · unfold send_clipboard
    split
    · rfl
    · cases sendOk <;> rfl

/-- Witness for C7: an inbound apply of `"Y"` records exactly `"Y"` in
`last_received_plain`. -/
theorem client_last_applied_amended_witness :
    (run_sync_loop_step none 0 sampleClient
        { source? := some "phone", type? := none,
          plain_text? := some "Y", html_text? := some "H" }).1.last_received_plain =
      some "Y" :=
  ((client_last_applied_amended none 0 sampleClient).1
      { source? := some "phone", type? := none,
        plain_text? := some "Y", html_text? := some "H" }).2 "Y" "H"
    (by norm_num [run_sync_loop_step, decrypt_text, sampleClient, DEVICE_ID,
      (by decide : ("phone" : String) ≠ "desktop-client"),
      (by decide : ("Y" : String) ≠ ""),
      (by decide : ("H" : String) ≠ ""),
      (by decide : (none : Option String) ≠ some "ping"),
      (by decide : some "Y" ≠ some "X")])

/-- C9: decryption failure degrades to the empty string instead of raising:
the failing plain field becomes `""`, the other field is still decrypted,
and the message is still applied (the handler returns normally with the
degraded pair, opening the ignore window as usual). -/
theorem client_decrypt_degrades (fe : Fernet) (now : ℚ) (s : ClientState)
    (data : InboundData) (raw_plain raw_html html : String)
    (hrp : data.plain_text? = some raw_plain)
    (hrh : data.html_text? = some raw_html)
    (hpne : raw_plain ≠ "")
    (hfail : fe.decryptFn raw_plain = none)
    (hhne : raw_html ≠ "")
    (hok : fe.decryptFn raw_html = some html)
    (hfilter : ¬(data.source? = some DEVICE_ID ∨ data.type? = some "ping"))
    (hdiff : some "" ≠ s.last_received_plain) :
    decrypt_text (some fe) raw_plain = "" ∧
    decrypt_text (some fe) raw_html = html ∧
    run_sync_loop_step (some fe) now s data =
      ({ s with ignore_until := now + 1, last_received_plain := some "" },
       some ("", html)) := by
  have h1 : decrypt_text (some fe) raw_plain = "" := by
    unfold decrypt_text
    rw [if_neg hpne]
    show (match fe.decryptFn raw_plain with
      | some plain => plain
      | none => "") = ""
    rw [hfail]
  have h2 : decrypt_text (some fe) raw_html = html := by
    unfold decrypt_text
    rw [if_neg hhne]
    show (match fe.decryptFn raw_html with
      | some plain => plain
      | none => "") = html
    rw [hok]
  refine ⟨h1, h2, ?_⟩
  simp only [run_sync_loop_step, hrp, hrh, Option.getD_some, h1, h2]
  rw [if_neg hfilter, if_pos hdiff]

/-- The transform used to instantiate client theorems on closed inputs: it
decrypts only the ciphertext `"ch"` (to `"H"`) and fails on anything else. -/
def fernetW : Fernet :=
  { encryptFn := fun t => some t
    decryptFn := fun t => if t = "ch" then some "H" else none }

/-- Witness for C9: plain field `"junk"` fails to decrypt and degrades to
`""`, html field `"ch"` still decrypts to `"H"`, and the message is applied. -/
theorem client_decrypt_degrades_witness :
    (fernetW.decryptFn "junk" = none ∧ fernetW.decryptFn "ch" = some "H" ∧
      some "" ≠ sampleClient.last_received_plain) ∧
    (decrypt_text (some fernetW) "junk" = "" ∧
      decrypt_text (some fernetW) "ch" = "H" ∧
      run_sync_loop_step (some fernetW) 0 sampleClient
          { source? := some "phone", type? := none,
            plain_text? := some "junk", html_text? := some "ch" } =
        ({ sampleClient with ignore_until := 0 + 1, last_received_plain := some "" },
         some ("", "H"))) :=
  ⟨⟨by decide, by decide, by decide⟩,
   client_decrypt_degrades fernetW 0 sampleClient
     { source? := some "phone", type? := none,
       plain_text? := some "junk", html_text? := some "ch" }
     "junk" "ch" "H" rfl rfl (by decide) (by decide) (by decide) (by decide)
     (by decide) (by decide)⟩

/-- C10 (implicit): the device identifier is the fixed constant
`"desktop-client"`; every message the outbound path produces carries it as
its source; and any desktop client's inbound handler — with any transform,
any time and any state — drops such a message with no state change, peers
included. -/
theorem client_shared_device_id (fernet fernet2 : Option Fernet)
    (now now2 : ℚ) (s s2 : ClientState) (plain html : String) (sendOk : Bool)
    (msg : SyncMessage)
    (hsent : (send_clipboard fernet now s plain html sendOk).2 = some msg) :
    DEVICE_ID = "desktop-client" ∧
    msg.source = "desktop-client" ∧
    run_sync_loop_step fernet2 now2 s2
      { source? := some msg.source, type? := none,
        plain_text? := some msg.plain_text, html_text? := some msg.html_text } =
      (s2, none) := by
  have hsrc : msg.source = DEVICE_ID := by
    unfold send_clipboard at hsent
    split at hsent
    · simp at hsent
    · cases sendOk with
      | false => simp at hsent
      | true =>
          have hsent2 : (some
              { plain_text := encrypt_text fernet plain
                html_text := encrypt_text fernet html
                source := DEVICE_ID
                timestamp := now } : Option SyncMessage) = some msg := by
            rw [← hsent]
            rfl
          rw [← Option.some.inj hsent2]
  refine ⟨rfl, hsrc, ?_⟩
  simp only [run_sync_loop_step]
  rw [if_pos (Or.inl (by rw [hsrc]))]

/-- An outbound message as built by `send_clipboard` at time 10 with no
transform configured. -/
def msgW : SyncMessage :=
  { plain_text := "Y", html_text := "h",
    source := "desktop-client", timestamp := 10 }

/-- Witness for C10: a message actually produced by the outbound path is
dropped by the inbound handler of any desktop client, state unchanged. -/
theorem client_shared_device_id_witness :
    ((send_clipboard none 10 sampleClient "Y" "h" true).2 = some msgW) ∧
    (DEVICE_ID = "desktop-client" ∧ msgW.source = "desktop-client" ∧
      run_sync_loop_step none 0 sampleClient
        { source? := some msgW.source, type? := none,
          plain_text? := some msgW.plain_text, html_text? := some msgW.html_text } =
        (sampleClient, none)) := by
  have h : (send_clipboard none 10 sampleClient "Y" "h" true).2 = some msgW := by
    norm_num [send_clipboard, sampleClient, encrypt_text, DEVICE_ID, msgW,
      (by decide : ("Y" : String) ≠ ""),
      (by decide : ("h" : String) ≠ "")]
  exact ⟨h, client_shared_device_id none none 10 0 sampleClient sampleClient
    "Y" "h" true msgW h⟩
